import Mathlib

/-!
Shallow embedding of the `catalyst-plugin-graphql` plugin (`src/index.js`,
duplicated with minor differences in an unnamed second revision).  The
embedding models the schema data (as provided by the external `graphql`
library), the query-text construction functions `_makeFieldTypeExpr`,
`_makeReturnExpr` and `_makeDefaultProjection`, the operation synthesis of
`_connect`, the transport-client recycling of `_ensureClient`, and the
per-call error classification of each synthesized operation.
-/

namespace GQL

mutual

/-- Schema type reference, mirroring the `graphql` library values the
plugin consumes: a named type or a NonNull / List wrapper
(`GraphQLNonNull`, `GraphQLList`). -/
inductive TypeRef : Type where
  | named : NamedType → TypeRef
  | nonNull : TypeRef → TypeRef
  | listOf : TypeRef → TypeRef

/-- Named type definition: scalar, enum, object (with its declared fields
in declaration order, as returned by `Object.values(type.getFields())`),
interface or union type. -/
inductive NamedType : Type where
  | scalarType : String → NamedType
  | enumType : String → NamedType
  | objectType : String → List FieldDef → NamedType
  | interfaceType : String → NamedType
  | unionType : String → NamedType

/-- Field definition: name, ordered argument list, and return type. -/
inductive FieldDef : Type where
  | mk : String → List ArgDef → TypeRef → FieldDef

/-- Argument definition: name and declared type. -/
inductive ArgDef : Type where
  | mk : String → TypeRef → ArgDef

end

/-- Name of a field definition. -/
def FieldDef.name : FieldDef → String
  | .mk n _ _ => n

/-- Declared arguments of a field definition. -/
def FieldDef.args : FieldDef → List ArgDef
  | .mk _ a _ => a

/-- Declared (possibly wrapped) return type of a field definition. -/
def FieldDef.type : FieldDef → TypeRef
  | .mk _ _ t => t

/-- Name of an argument definition. -/
def ArgDef.name : ArgDef → String
  | .mk n _ => n

/-- Declared (possibly wrapped) type of an argument definition. -/
def ArgDef.type : ArgDef → TypeRef
  | .mk _ t => t

/-- Name of a named type. -/
def NamedType.name : NamedType → String
  | .scalarType n => n
  | .enumType n => n
  | .objectType n _ => n
  | .interfaceType n => n
  | .unionType n => n

/-- Semantics of `getNamedType` from the `graphql` library: strip all
NonNull / List wrappers down to the underlying named type. -/
def getNamedType : TypeRef → NamedType
  | .named t => t
  | .nonNull inner => getNamedType inner
  | .listOf inner => getNamedType inner

/-- Semantics of `isLeafType` from the `graphql` library: true exactly for
a scalar or enum type itself; a NonNull or List wrapper is never a leaf
type, even when it wraps a scalar. -/
def isLeafType : TypeRef → Bool
  | .named (.scalarType _) => true
  | .named (.enumType _) => true
  | _ => false

/-- Whether a named type is a `GraphQLObjectType` (`instanceof` check used
by `_makeDefaultProjection`); interface and union types are distinct
classes and fail the check. -/
def isObjectType : NamedType → Bool
  | .objectType _ _ => true
  | _ => false

/-- Embedding of `_makeFieldTypeExpr` (src/index.js lines 98-106): render
a type reference into query-language type syntax. -/
def makeFieldTypeExpr : TypeRef → String
  | .nonNull inner => makeFieldTypeExpr inner ++ "!"
  | .listOf inner => "[" ++ makeFieldTypeExpr inner ++ "]"
  | .named t => t.name

mutual

/-- Value stored under one key of a projections object: a boolean, the JS
`null`, or a nested projection object.  (`undefined`, numbers and strings
can also appear in a JS object but the plugin's own projections only ever
hold booleans and nested objects; `null` is modelled because JS classifies
it as `typeof null === "object"`.) -/
inductive ProjValue : Type where
  | bool : Bool → ProjValue
  | null : ProjValue
  | sub : Projection → ProjValue

/-- Projections object: an ordered association of field names to
`ProjValue`s, mirroring a plain JS object whose key order is insertion
order (the order `Object.entries` iterates). -/
inductive Projection : Type where
  | nil : Projection
  | cons : String → ProjValue → Projection → Projection

end

/-- Semantics of lodash's `isEmpty` on a plain projections object: true
exactly when the object has no own enumerable keys. -/
def Projection.isEmpty : Projection → Bool
  | .nil => true
  | .cons _ _ _ => false

/-- Final step of `_makeReturnExpr`: join the surviving entry strings with
a comma and wrap in braces when the joined string is non-empty, else
return the empty string (the JS code tests truthiness of the joined
string). -/
def wrapSelection (l : List String) : String :=
  let expr := String.intercalate ", " l
  if expr = "" then "" else "\x7b" ++ expr ++ "\x7d"

mutual

/-- Entry strings of `_makeReturnExpr` (src/index.js lines 110-120): the
result of `Object.entries(projections).map(cb).filter(v => v)` — the map
callback applied to each entry in order, with falsy results (the
`undefined` produced for a falsy non-object value, and any empty string)
removed by the truthiness filter. -/
def entryStrings : Projection → List String
  | .nil => []
  | .cons f v rest =>
    match renderEntry f v with
    | some s => if s = "" then entryStrings rest else s :: entryStrings rest
    | none => entryStrings rest

/-- Map callback of `_makeReturnExpr` on one entry `[field, show]`:
when `typeof show === "object"` (a nested projection, or JS `null`) it
returns the interpolation of `field` and the recursive render (for `null`
the recursive call hits the `if (!projections) return ""` guard, so the
contribution is the field name followed by a space); when `show` is `true`
it returns the bare field name; when `show` is `false` it returns nothing
(`undefined`, modelled as `none`). -/
def renderEntry : String → ProjValue → Option String
  | f, .sub p => some (f ++ " " ++ wrapSelection (entryStrings p))
  | f, .null => some (f ++ " " ++ "")
  | f, .bool true => some f
  | _, .bool false => none

end

/-- Embedding of `_makeReturnExpr` (src/index.js lines 108-126).  The
argument is `none` when the JS value is `null` or `undefined` (caught by
the `if (!projections) return ""` guard). -/
def makeReturnExpr : Option Projection → String
  | none => ""
  | some p => wrapSelection (entryStrings p)

/-- Loop of `_makeDefaultProjection` (src/index.js lines 131-136): scan
the declared fields in order and return the first one whose declared type
passes `isLeafType`, stopping at the first match (the early `return`). -/
def scanLeafField : List FieldDef → Option FieldDef
  | [] => none
  | f :: fs => if isLeafType f.type then some f else scanLeafField fs

theorem sizeOf_getNamedType_le : (t : TypeRef) → sizeOf (getNamedType t) ≤ sizeOf t
  | .named nt => by simp [getNamedType]
  | .nonNull inner => by
    have ih := sizeOf_getNamedType_le inner
    simp [getNamedType]
    omega
  | .listOf inner => by
    have ih := sizeOf_getNamedType_le inner
    simp [getNamedType]
    omega

theorem sizeOf_fieldType_lt (f : FieldDef) : sizeOf f.type < sizeOf f := by
  cases f with
  | mk n a t => simp [FieldDef.type]

/-- Embedding of `_makeDefaultProjection` (src/index.js lines 128-141).
For an object type it scans the declared fields for a first `isLeafType`
match and selects it as a single-entry projection; failing that it
destructures the first declared field and recurses into its named return
type.  The `none` result models the `TypeError` the JS code throws when
the object type declares no fields at all (`const [field] = []` leaves
`field` undefined and `field.name` throws); the failure propagates out of
the recursion.  A non-object named type yields the empty projection. -/
def makeDefaultProjection : NamedType → Option Projection
  | .objectType _ [] => none
  | .objectType _ (f :: fs) =>
    match scanLeafField (f :: fs) with
    | some g => some (.cons g.name (.bool true) .nil)
    | none =>
      (makeDefaultProjection (getNamedType f.type)).map
        (fun sub => .cons f.name (.sub sub) .nil)
  | .scalarType _ => some .nil
  | .enumType _ => some .nil
  | .interfaceType _ => some .nil
  | .unionType _ => some .nil
termination_by t => sizeOf t
decreasing_by
  have h1 := sizeOf_getNamedType_le f.type
  have h2 := sizeOf_fieldType_lt f
  simp
  omega

deriving instance DecidableEq for Projection

/-- Argument declaration text of `_connect`: for each declared argument,
interpolate a dollar-sign, its name, a colon and its rendered type, and
join with a comma (src/index.js line 33). -/
def makeArgDeclare (args : List ArgDef) : String :=
  String.intercalate ", " (args.map fun a => "$" ++ a.name ++ ": " ++ makeFieldTypeExpr a.type)

/-- Argument binding text of `_connect`: for each declared argument,
interpolate its name, a colon and a dollar-variable of the same name, and
join with a comma (src/index.js line 34). -/
def makeArgBindings (args : List ArgDef) : String :=
  String.intercalate ", " (args.map fun a => a.name ++ ": $" ++ a.name)

/-- Kind of a synthesized operation: installed from the schema's query
type (executed with `apollo.query`) or from its mutation type (executed
with `apollo.mutate`). -/
inductive OpKind : Type where
  | query : OpKind
  | mutation : OpKind
deriving DecidableEq

/-- Document keyword used in the template literal for each kind. -/
def opKeyword : OpKind → String
  | .query => "query"
  | .mutation => "mutation"

/-- Values closed over by one synthesized operation in `_connect`: its
kind, the field name, the pre-rendered argument declaration and binding
texts, and the precomputed default projection. -/
structure Operation : Type where
  kind : OpKind
  fieldName : String
  argDeclare : String
  argBindings : String
  defaultProjection : Projection
deriving DecidableEq

/-- Closure construction for one schema field in `_connect`. -/
def mkOperation (k : OpKind) (f : FieldDef) (dp : Projection) : Operation :=
  ⟨k, f.name, makeArgDeclare f.args, makeArgBindings f.args, dp⟩

/-- Per-field synthesis loop of `_connect` (src/index.js lines 32-56 and
58-82): for each field in declaration order, compute the default
projection of the field's named return type (propagating the failure of
`_makeDefaultProjection` on a zero-field object type) and record the
assignment of the synthesized operation under the field's name. -/
def synthOps (k : OpKind) : List FieldDef → Option (List (String × Operation))
  | [] => some []
  | f :: fs => do
    let dp ← makeDefaultProjection (getNamedType f.type)
    let rest ← synthOps k fs
    pure ((f.name, mkOperation k f dp) :: rest)

/-- Introspected schema as consumed by `_connect`: `getQueryType()` (a
GraphQL schema always has one) and the optional `getMutationType()`. -/
structure Schema : Type where
  queryType : NamedType
  mutationType : Option NamedType

/-- Field collection of an object type, `Object.values(t.getFields())` in
declaration order. -/
def getFields : NamedType → List FieldDef
  | .objectType _ fs => fs
  | _ => []

/-- Embedding of `_connect` (src/index.js lines 30-84): synthesize one
operation per query-type field, then, only when `getMutationType()` is
present, one per mutation-type field; the result is the ordered list of
property assignments `this[field.name] = op` performed on the client. -/
def connect (s : Schema) : Option (List (String × Operation)) := do
  let qOps ← synthOps .query (getFields s.queryType)
  match s.mutationType with
  | none => pure qOps
  | some mt => do
    let mOps ← synthOps .mutation (getFields mt)
    pure (qOps ++ mOps)

/-- Effect of the sequence of property assignments on the client object:
lookup of a name returns the most recent assignment under that name
(later entries in the list overwrite earlier ones). -/
def installOps : List (String × Operation) → String → Option Operation
  | [], _ => none
  | e :: rest, n =>
    match installOps rest n with
    | some op => some op
    | none => if n = e.1 then some e.2 else none

/-- Document text built by one operation invocation, from the closed-over
pieces and the effective projections, following the template literal
on src/index.js lines 42 and 68. -/
def invokeDoc (op : Operation) (projections : Projection) : String :=
  opKeyword op.kind ++ " (" ++ op.argDeclare ++ ") \x7b " ++ op.fieldName ++
    " (" ++ op.argBindings ++ ") " ++ makeReturnExpr (some projections) ++ " \x7d"

/-- Projection resolution plus document construction of one operation
invocation (src/index.js lines 36-42): the caller-supplied projections
are replaced by the closed-over default when absent (`!projections`) or
when lodash `isEmpty` holds. -/
def invokeDocument (op : Operation) (supplied : Option Projection) : String :=
  let projections : Projection :=
    match supplied with
    | none => op.defaultProjection
    | some p => if p.isEmpty then op.defaultProjection else p
  invokeDoc op projections

/-- Value of `Number.MAX_SAFE_INTEGER`, the initial sentinel of
`this.counter` set in the constructor (src/index.js line 27). -/
def maxSafeInteger : Nat := 2 ^ 53 - 1

/-- Mutable state touched by `_ensureClient`: the use counter, the current
transport-client instance (`this.apollo`, identified by a construction
serial number, `none` while still `undefined`), and the total number of
`new ApolloClient(...)` constructions performed so far. -/
structure ClientState : Type where
  counter : Nat
  apollo : Option Nat
  instancesMade : Nat
deriving DecidableEq

/-- State set up by the `GraphQLClient` constructor (src/index.js lines
26-27): no transport client yet and the counter at the sentinel. -/
def initClientState : ClientState :=
  ⟨maxSafeInteger, none, 0⟩

/-- Embedding of `_ensureClient` (src/index.js lines 86-96) for a recycle
threshold `resetStoreEvery`: when the counter has reached the threshold,
construct a fresh transport client and reset the counter to 0; then, in
every case, increment the counter by 1. -/
def ensureClient (resetStoreEvery : Nat) (s : ClientState) : ClientState :=
  let s :=
    if s.counter ≥ resetStoreEvery then
      ⟨0, some s.instancesMade, s.instancesMade + 1⟩
    else s
  ⟨s.counter + 1, s.apollo, s.instancesMade⟩

/-- State after `n` successive `_ensureClient` calls on a freshly
constructed client. -/
def ensureIter (resetStoreEvery : Nat) : Nat → ClientState
  | 0 => initClientState
  | n + 1 => ensureClient resetStoreEvery (ensureIter resetStoreEvery n)

/-- Network-layer failure attached to a transport error, with its
optional `statusCode` property (absent on e.g. a connection failure). -/
structure NetworkError : Type where
  statusCode : Option Nat
deriving DecidableEq

/-- Error raised by the transport execution, with its optional
`networkError` property (absent on e.g. GraphQL validation errors). -/
structure JsError : Type where
  networkError : Option NetworkError
deriving DecidableEq

/-- Failure code passed to `logger.fail` by every synthesized operation. -/
def failedApiServerError : String := "_failed_api_server_error"

/-- Outcome of one synthesized operation call: the extracted response
value, a report through the logger's `fail` capability (carrying the
failure code and the original error, with no independent re-raise by the
operation), or an error re-raised unchanged to the caller. -/
inductive OpOutcome (α : Type) : Type where
  | ok : α → OpOutcome α
  | loggedFail : String → JsError → OpOutcome α
  | raised : JsError → OpOutcome α
deriving DecidableEq

/-- Try/catch body of a synthesized operation around the transport
execution (src/index.js lines 39-54): on success return the response
value; on an error `e`, when `e.networkError` is truthy and
`!e.networkError.statusCode || e.networkError.statusCode >= 500` holds
(the status is absent, `0` — also JS-falsy — or at least 500), hand the
failure code and `e` to `logger.fail`; otherwise re-throw `e`. -/
def runOperation (α : Type) (transport : Except JsError α) : OpOutcome α :=
  match transport with
  | .ok v => .ok v
  | .error e =>
    match e.networkError with
    | some ne =>
      match ne.statusCode with
      | none => .loggedFail failedApiServerError e
      | some c =>
        if c = 0 ∨ 500 ≤ c then .loggedFail failedApiServerError e
        else .raised e
    | none => .raised e

/-! Helper lemmas about strings and the rendering functions. -/

theorem eq_empty_of_length_eq_zero (s : String) (h : s.length = 0) : s = "" := by
  cases s with
  | mk data =>
    simp [String.length] at h
    subst h
    rfl

theorem append_space_ne_empty (f : String) : f ++ " " ≠ "" := by
  intro h
  have hl := congrArg String.length h
  rw [String.length_append] at hl
  have h1 : (" " : String).length = 1 := rfl
  have h0 : ("" : String).length = 0 := rfl
  omega

theorem append_space_append_ne_empty (f t : String) : f ++ " " ++ t ≠ "" := by
  intro h
  have hl := congrArg String.length h
  rw [String.length_append, String.length_append] at hl
  have h1 : (" " : String).length = 1 := rfl
  have h0 : ("" : String).length = 0 := rfl
  omega

theorem intercalate_go_ne_empty (sep : String) :
    ∀ (as : List String) (acc : String), acc ≠ "" → String.intercalate.go acc sep as ≠ ""
  | [], acc, h => by simpa [String.intercalate.go] using h
  | a :: as, acc, h => by
    rw [String.intercalate.go]
    refine intercalate_go_ne_empty sep as (acc ++ sep ++ a) ?_
    intro hcontra
    have hl := congrArg String.length hcontra
    rw [String.length_append, String.length_append] at hl
    have h0 : ("" : String).length = 0 := rfl
    have hpos : 0 < acc.length := by
      cases Nat.eq_zero_or_pos acc.length with
      | inl hz => exact absurd (eq_empty_of_length_eq_zero acc hz) h
      | inr hp => exact hp
    omega

theorem intercalate_ne_empty_of_head_ne_empty (sep x : String) (rest : List String)
    (hx : x ≠ "") : String.intercalate sep (x :: rest) ≠ "" := by
  rw [String.intercalate]
  exact intercalate_go_ne_empty sep rest x hx

theorem entryStrings_ne_empty : (p : Projection) → ∀ s ∈ entryStrings p, s ≠ ""
  | .nil => by simp [entryStrings]
  | .cons f v rest => by
    have ih := entryStrings_ne_empty rest
    intro s hs
    cases v with
    | bool b =>
      cases b with
      | false =>
        simp only [entryStrings, renderEntry] at hs
        exact ih s hs
      | true =>
        simp only [entryStrings, renderEntry] at hs
        by_cases hf : f = ""
        · rw [if_pos hf] at hs
          exact ih s hs
        · rw [if_neg hf] at hs
          rcases List.mem_cons.mp hs with h | h
          · subst h
            exact hf
          · exact ih s h
    | null =>
      simp only [entryStrings, renderEntry] at hs
      rw [if_neg (append_space_append_ne_empty f "")] at hs
      rcases List.mem_cons.mp hs with h | h
      · subst h
        exact append_space_append_ne_empty f ""
      · exact ih s h
    | sub p =>
      simp only [entryStrings, renderEntry] at hs
      rw [if_neg (append_space_append_ne_empty f (wrapSelection (entryStrings p)))] at hs
      rcases List.mem_cons.mp hs with h | h
      · subst h
        exact append_space_append_ne_empty f (wrapSelection (entryStrings p))
      · exact ih s h

/-! Claim theorems. -/

/-- C6: the type-expression renderer satisfies, at every nesting depth,
render(Named(name)) = name, render(NonNull(inner)) = render(inner) ++ "!",
and render(List(inner)) = "[" ++ render(inner) ++ "]"; in particular
NonNull(List(NonNull(Named("Int")))) renders as "[Int!]!". -/
theorem makeFieldTypeExpr_rendering :
    (∀ nt : NamedType, makeFieldTypeExpr (.named nt) = nt.name)
    ∧ (∀ t : TypeRef, makeFieldTypeExpr (.nonNull t) = makeFieldTypeExpr t ++ "!")
    ∧ (∀ t : TypeRef, makeFieldTypeExpr (.listOf t) = "[" ++ makeFieldTypeExpr t ++ "]")
    ∧ makeFieldTypeExpr (.nonNull (.listOf (.nonNull (.named (.scalarType "Int"))))) = "[Int!]!" :=
  ⟨fun _ => rfl, fun _ => rfl, fun _ => rfl, rfl⟩

/-- C2 counterexample: the transport error with `networkError.statusCode`
equal to `0` has a network-layer failure whose status code is present and
below 500, so the claim as stated demands a re-raise; the code instead
classifies it with the JS-falsy test `!statusCode` and hands it to the
logger's fail capability. -/
theorem statusCode_zero_cex :
    runOperation Nat (.error ⟨some ⟨some 0⟩⟩) =
      .loggedFail failedApiServerError ⟨some ⟨some 0⟩⟩
    ∧ runOperation Nat (.error ⟨some ⟨some 0⟩⟩) ≠ .raised ⟨some ⟨some 0⟩⟩ :=
  ⟨rfl, by decide⟩

/-- C2 (amended): a successful transport returns the value; an error with
no network-layer failure, or with a present non-zero status code below
500, is re-raised unchanged; an error whose network-layer failure has a
missing status code, a zero status code (JS-falsy, like a missing one), or
a status code of at least 500 is reported through the logger's fail
capability with the failure code and the original error, and is not
re-raised by the operation itself. -/
theorem operation_failure_policy (α : Type) (v : α) (e : JsError) :
    runOperation α (.ok v) = .ok v
    ∧ (e.networkError = none → runOperation α (.error e) = .raised e)
    ∧ (∀ ne, e.networkError = some ne → ne.statusCode = none →
        runOperation α (.error e) = .loggedFail failedApiServerError e)
    ∧ (∀ ne c, e.networkError = some ne → ne.statusCode = some c → (c = 0 ∨ 500 ≤ c) →
        runOperation α (.error e) = .loggedFail failedApiServerError e)
    ∧ (∀ ne c, e.networkError = some ne → ne.statusCode = some c → c ≠ 0 → c < 500 →
        runOperation α (.error e) = .raised e) := by
  refine ⟨rfl, ?_, ?_, ?_, ?_⟩
  · intro h
    simp [runOperation, h]
  · intro ne h hs
    simp [runOperation, h, hs]
  · intro ne c h hs hc
    simp only [runOperation, h, hs]
    rw [if_pos hc]
  · intro ne c h hs h0 h5
    simp only [runOperation, h, hs]
    rw [if_neg (by omega)]

/-- C2 witness: a 503 network failure is handed to the logger's fail
capability with the failure code and the original error; a 400 network
failure is re-raised unchanged. -/
theorem operation_failure_policy_witness :
    runOperation Nat (.error ⟨some ⟨some 503⟩⟩) =
      .loggedFail failedApiServerError ⟨some ⟨some 503⟩⟩
    ∧ runOperation Nat (.error ⟨some ⟨some 400⟩⟩) = .raised ⟨some ⟨some 400⟩⟩ :=
  ⟨(operation_failure_policy Nat 0 ⟨some ⟨some 503⟩⟩).2.2.2.1 ⟨some 503⟩ 503 rfl rfl
      (Or.inr (by decide)),
   (operation_failure_policy Nat 0 ⟨some ⟨some 400⟩⟩).2.2.2.2 ⟨some 400⟩ 400 rfl rfl
      (by decide) (by decide)⟩

/-- C5 counterexample: an entry whose value is the JS `null` is not
omitted — `typeof null === "object"` sends it down the recursion branch,
which renders the field name followed by a space and an empty
sub-selection, so rendering a-true, b-null yields "\x7ba, b \x7d" rather
than the "\x7ba\x7d" the claim's omit-falsy rule demands. -/
theorem null_entry_rendered_cex :
    makeReturnExpr (some (.cons "a" (.bool true) (.cons "b" .null .nil))) = "\x7ba, b \x7d"
    ∧ makeReturnExpr (some (.cons "a" (.bool true) (.cons "b" .null .nil))) ≠ "\x7ba\x7d" :=
  ⟨rfl, by decide⟩

/-- C5 (amended): the renderer processes entries in the projection's
order; an entry with value `true` and a non-empty field name contributes
the bare field name (an empty-string name is dropped by the truthiness
filter); an entry with value `false` is omitted; an entry with value
`null` contributes the field name followed by a space (it is typed as an
object and recurses into an empty render, so it is not omitted); an entry
with a nested projection contributes the field name, a space, and the
recursively rendered sub-selection; the contributions are joined with
", " and wrapped in braces when the entry list is non-empty, and an empty
entry list renders as the empty string; rendering a-true over b-(c-true,
d-false) yields "\x7ba, b \x7bc\x7d\x7d". -/
theorem makeReturnExpr_rendering :
    makeReturnExpr none = ""
    ∧ makeReturnExpr (some .nil) = ""
    ∧ (∀ f rest, f ≠ "" → entryStrings (.cons f (.bool true) rest) = f :: entryStrings rest)
    ∧ (∀ f rest, entryStrings (.cons f (.bool false) rest) = entryStrings rest)
    ∧ (∀ f rest, entryStrings (.cons f .null rest) = (f ++ " ") :: entryStrings rest)
    ∧ (∀ f p rest, entryStrings (.cons f (.sub p) rest) =
        (f ++ " " ++ makeReturnExpr (some p)) :: entryStrings rest)
    ∧ (∀ p, entryStrings p = [] → makeReturnExpr (some p) = "")
    ∧ (∀ p, entryStrings p ≠ [] → makeReturnExpr (some p) =
        "\x7b" ++ String.intercalate ", " (entryStrings p) ++ "\x7d")
    ∧ makeReturnExpr (some (.cons "a" (.bool true) (.cons "b"
        (.sub (.cons "c" (.bool true) (.cons "d" (.bool false) .nil))) .nil))) =
        "\x7ba, b \x7bc\x7d\x7d" := by
  refine ⟨rfl, rfl, ?_, ?_, ?_, ?_, ?_, ?_, rfl⟩
  · intro f rest hf
    simp [entryStrings, renderEntry, if_neg hf]
  · intro f rest
    simp [entryStrings, renderEntry]
  · intro f rest
    simp only [entryStrings, renderEntry]
    rw [if_neg (append_space_append_ne_empty f "")]
    rw [String.append_empty]
  · intro f p rest
    simp only [entryStrings, renderEntry, makeReturnExpr]
    rw [if_neg (append_space_append_ne_empty f (wrapSelection (entryStrings p)))]
  · intro p hp
    simp [makeReturnExpr, wrapSelection, hp, String.intercalate]
  · intro p hp
    cases hl : entryStrings p with
    | nil => exact absurd hl hp
    | cons x rest =>
      have hx : x ≠ "" := entryStrings_ne_empty p x (by rw [hl]; exact List.mem_cons_self x rest)
      simp only [makeReturnExpr, wrapSelection, hl]
      rw [if_neg (intercalate_ne_empty_of_head_ne_empty ", " x rest hx)]

/-- C5 witness: the amended per-entry rules evaluated at concrete
entries — a `true` entry with the non-empty name "a" contributes "a", and
a `null` entry named "b" contributes "b " (not omitted). -/
theorem makeReturnExpr_rendering_witness :
    entryStrings (.cons "a" (.bool true) .nil) = ["a"]
    ∧ entryStrings (.cons "b" .null .nil) = ["b "]
    ∧ makeReturnExpr (some (.cons "x" (.bool false) .nil)) = "" := by
  refine ⟨?_, ?_, ?_⟩
  · have h := makeReturnExpr_rendering.2.2.1 "a" .nil (by decide)
    simpa [entryStrings] using h
  · have h := makeReturnExpr_rendering.2.2.2.2.1 "b" .nil
    simpa [entryStrings] using h
  · have h := makeReturnExpr_rendering.2.2.2.2.2.2.1 (.cons "x" (.bool false) .nil)
      (by simp [entryStrings, renderEntry])
    exact h

theorem scanLeafField_eq_find : ∀ fs : List FieldDef,
    scanLeafField fs = fs.find? (fun g => isLeafType g.type)
  | [] => rfl
  | f :: fs => by
    by_cases h : isLeafType f.type
    · rw [scanLeafField, if_pos h, List.find?_cons_of_pos _ (by simpa using h)]
    · rw [scanLeafField, if_neg h, List.find?_cons_of_neg _ (by simpa using h),
        scanLeafField_eq_find fs]

/-- C1 counterexample: an object type whose only field "id" is declared
with the wrapped leaf type NonNull(Named("ID")) — `isLeafType` is false on
the NonNull wrapper, so the scan finds no leaf field and the selector
recurses into the field's named type (the scalar "ID", which yields the
empty projection); the result is the single entry id-(empty sub-projection)
rather than the id-true the claim's "wrapped leaf counts as leaf" sentence
demands. -/
theorem wrappedLeaf_not_leaf_cex :
    makeDefaultProjection
        (.objectType "T" [.mk "id" [] (.nonNull (.named (.scalarType "ID")))]) =
      some (.cons "id" (.sub .nil) .nil)
    ∧ makeDefaultProjection
        (.objectType "T" [.mk "id" [] (.nonNull (.named (.scalarType "ID")))]) ≠
      some (.cons "id" (.bool true) .nil) := by
  have h : makeDefaultProjection
      (.objectType "T" [.mk "id" [] (.nonNull (.named (.scalarType "ID")))]) =
      some (.cons "id" (.sub .nil) .nil) := by
    simp [makeDefaultProjection, scanLeafField, isLeafType, FieldDef.type, FieldDef.name,
      getNamedType]
  exact ⟨h, by rw [h]; decide⟩

/-- C1 (amended): for an object-type named return type with at least one
declared field, the selector scans the fields in declaration order; a
field counts as leaf-typed only when its declared type is itself a bare
named scalar or enum type — a wrapped leaf type such as
NonNull(Named("ID")) does not count.  If the scan finds such a field, the
result is the single-entry projection mapping the first one to true and
the scan stops there; if no field's declared type is a bare leaf, the
result maps the first declared field's name to the recursively selected
projection of its named type (propagating that recursion's failure). -/
theorem makeDefaultProjection_firstLeaf_scan (tname : String) (f : FieldDef)
    (fs : List FieldDef) :
    (∀ g, (f :: fs).find? (fun x => isLeafType x.type) = some g →
      makeDefaultProjection (.objectType tname (f :: fs)) =
        some (.cons g.name (.bool true) .nil))
    ∧ ((f :: fs).find? (fun x => isLeafType x.type) = none →
      makeDefaultProjection (.objectType tname (f :: fs)) =
        (makeDefaultProjection (getNamedType f.type)).map
          (fun sub => .cons f.name (.sub sub) .nil)) := by
  constructor
  · intro g hg
    have hs : scanLeafField (f :: fs) = some g := by
      rw [scanLeafField_eq_find]
      exact hg
    simp [makeDefaultProjection, hs]
  · intro hnone
    have hs : scanLeafField (f :: fs) = none := by
      rw [scanLeafField_eq_find]
      exact hnone
    simp [makeDefaultProjection, hs]

/-- C1 witness: both branches of the amended scan at concrete types — for
a type with fields name-String (bare leaf, declared first) and id-ID!
(wrapped), the first bare leaf "name" is selected even though the claim's
original reading would have had "id" compete as a leaf; and for a type
whose only field is the wrapped id-ID!, the selector descends into the
first field. -/
theorem makeDefaultProjection_firstLeaf_scan_witness :
    makeDefaultProjection (.objectType "U" [.mk "name" [] (.named (.scalarType "String")),
        .mk "id" [] (.nonNull (.named (.scalarType "ID")))]) =
      some (.cons "name" (.bool true) .nil)
    ∧ makeDefaultProjection (.objectType "V" [.mk "inner" []
        (.nonNull (.named (.objectType "W" [.mk "x" [] (.named (.scalarType "Int"))])))]) =
      some (.cons "inner" (.sub (.cons "x" (.bool true) .nil)) .nil) := by
  constructor
  · have h := (makeDefaultProjection_firstLeaf_scan "U"
      (.mk "name" [] (.named (.scalarType "String")))
      [.mk "id" [] (.nonNull (.named (.scalarType "ID")))]).1
      (.mk "name" [] (.named (.scalarType "String"))) rfl
    simpa [FieldDef.name] using h
  · have h := (makeDefaultProjection_firstLeaf_scan "V"
      (.mk "inner" [] (.nonNull (.named (.objectType "W"
        [.mk "x" [] (.named (.scalarType "Int"))]))))
      []).2 rfl
    rw [h]
    simp [getNamedType, FieldDef.type, FieldDef.name, makeDefaultProjection, scanLeafField,
      isLeafType]

theorem synthOps_spec (k : OpKind) : ∀ (fs : List FieldDef) (l : List (String × Operation)),
    synthOps k fs = some l →
      l.map Prod.fst = fs.map FieldDef.name ∧ ∀ e ∈ l, e.2.kind = k
  | [], l, h => by
    simp [synthOps] at h
    subst h
    simp
  | f :: fs, l, h => by
    cases hd : makeDefaultProjection (getNamedType f.type) with
    | none =>
      rw [synthOps, hd] at h
      simp at h
    | some dp =>
      cases hr : synthOps k fs with
      | none =>
        rw [synthOps, hd, hr] at h
        simp at h
      | some rest =>
        rw [synthOps, hd, hr] at h
        simp at h
        subst h
        have ih := synthOps_spec k fs rest hr
        constructor
        · simp [mkOperation, ih.1]
        · intro e he
          rcases List.mem_cons.mp he with rfl | he'
          · rfl
          · exact ih.2 e he'

theorem synthOps_eq_none_of_mem (k : OpKind) : ∀ (fs : List FieldDef) (f : FieldDef),
    f ∈ fs → makeDefaultProjection (getNamedType f.type) = none → synthOps k fs = none
  | [], f, h, _ => absurd h (List.not_mem_nil f)
  | g :: fs, f, h, hf => by
    rcases List.mem_cons.mp h with rfl | h'
    · simp [synthOps, hf]
    · cases hg : makeDefaultProjection (getNamedType g.type) with
      | none => simp [synthOps, hg]
      | some dp => simp [synthOps, hg, synthOps_eq_none_of_mem k fs f h' hf]

theorem installOps_eq_some : ∀ (l : List (String × Operation)) (n : String) (op : Operation),
    installOps l n = some op → (n, op) ∈ l
  | [], n, op, h => by simp [installOps] at h
  | e :: rest, n, op, h => by
    rw [installOps] at h
    cases hr : installOps rest n with
    | some op' =>
      rw [hr] at h
      have hop : op' = op := by simpa using h
      subst hop
      exact List.mem_cons_of_mem e (installOps_eq_some rest n op' hr)
    | none =>
      rw [hr] at h
      by_cases hn : n = e.1
      · rw [if_pos hn] at h
        have hop : op = e.2 := by simpa using h.symm
        have he : (n, op) = e := Prod.ext hn hop
        rw [he]
        exact List.mem_cons_self e rest
      · rw [if_neg hn] at h
        simp at h

theorem installOps_isSome_of_mem : ∀ (l : List (String × Operation)) (n : String),
    n ∈ l.map Prod.fst → ∃ op, installOps l n = some op
  | [], n, h => by simp at h
  | e :: rest, n, h => by
    rw [installOps]
    cases hr : installOps rest n with
    | some op' => exact ⟨op', rfl⟩
    | none =>
      rw [List.map_cons] at h
      rcases List.mem_cons.mp h with hn | hn
      · exact ⟨e.2, by rw [if_pos hn]⟩
      · obtain ⟨op, hop⟩ := installOps_isSome_of_mem rest n hn
        rw [hop] at hr
        cases hr

theorem installOps_append_right : ∀ (l1 l2 : List (String × Operation)) (n : String)
    (op : Operation), installOps l2 n = some op → installOps (l1 ++ l2) n = some op
  | [], l2, n, op, h => h
  | e :: l1, l2, n, op, h => by
    rw [List.cons_append, installOps, installOps_append_right l1 l2 n op h]

/-- C9: an object type with zero declared fields makes the selector fail
(the JS code destructures the first element of an empty field collection
and then reads `.name` of `undefined`, raising a `TypeError`), and
`_connect` on a schema containing a field with such a named return type —
whether declared on the query type or on the mutation type — fails rather
than producing operations. -/
theorem empty_object_projection_fails (tname : String) :
    makeDefaultProjection (.objectType tname []) = none
    ∧ (∀ (s : Schema) (f : FieldDef) (oname : String),
        (f ∈ getFields s.queryType ∨
          ∃ mt, s.mutationType = some mt ∧ f ∈ getFields mt) →
        getNamedType f.type = .objectType oname [] →
        connect s = none) := by
  constructor
  · simp [makeDefaultProjection]
  · intro s f oname hmem htype
    have hf : makeDefaultProjection (getNamedType f.type) = none := by
      rw [htype]
      simp [makeDefaultProjection]
    rcases hmem with hq | ⟨mt, hmt, hm⟩
    · have hqnone := synthOps_eq_none_of_mem .query (getFields s.queryType) f hq hf
      simp [connect, hqnone]
    · have hmnone := synthOps_eq_none_of_mem .mutation (getFields mt) f hm hf
      cases hql : synthOps .query (getFields s.queryType) with
      | none => simp [connect, hql]
      | some ql => simp [connect, hql, hmt, hmnone]

/-- C9 witness: concrete schemas whose only occurrence of the zero-field
object type "Empty" is the return type of a query field in the first and
of a mutation field in the second — the selector fails on "Empty" and
connect fails on both schemas. -/
theorem empty_object_projection_fails_witness :
    makeDefaultProjection (.objectType "Empty" []) = none
    ∧ connect ⟨.objectType "Q" [.mk "broken" [] (.named (.objectType "Empty" []))], none⟩ =
      none
    ∧ connect ⟨.objectType "Q" [.mk "ping" [] (.named (.scalarType "String"))],
        some (.objectType "M" [.mk "broken" [] (.named (.objectType "Empty" []))])⟩ =
      none := by
  refine ⟨(empty_object_projection_fails "Empty").1, ?_, ?_⟩
  · exact (empty_object_projection_fails "Empty").2
      ⟨.objectType "Q" [.mk "broken" [] (.named (.objectType "Empty" []))], none⟩
      (.mk "broken" [] (.named (.objectType "Empty" []))) "Empty"
      (Or.inl (by simp [getFields])) rfl
  · exact (empty_object_projection_fails "Empty").2
      ⟨.objectType "Q" [.mk "ping" [] (.named (.scalarType "String"))],
        some (.objectType "M" [.mk "broken" [] (.named (.objectType "Empty" []))])⟩
      (.mk "broken" [] (.named (.objectType "Empty" []))) "Empty"
      (Or.inr ⟨.objectType "M" [.mk "broken" [] (.named (.objectType "Empty" []))], rfl,
        by simp [getFields]⟩) rfl

/-- C10: every non-object named return type — scalar and enum, but also
interface and union, which fail the `instanceof GraphQLObjectType` test —
yields the empty default projection, and a call with no caller-supplied
projection on an operation whose default is empty renders an empty
selection set (the empty string) in the built document. -/
theorem non_object_default_projection (n : String) (op : Operation) :
    makeDefaultProjection (.scalarType n) = some .nil
    ∧ makeDefaultProjection (.enumType n) = some .nil
    ∧ makeDefaultProjection (.interfaceType n) = some .nil
    ∧ makeDefaultProjection (.unionType n) = some .nil
    ∧ makeReturnExpr (some .nil) = ""
    ∧ (op.defaultProjection = .nil → invokeDocument op none =
        opKeyword op.kind ++ " (" ++ op.argDeclare ++ ") \x7b " ++ op.fieldName ++
          " (" ++ op.argBindings ++ ") " ++ "" ++ " \x7d") := by
  refine ⟨by simp [makeDefaultProjection], by simp [makeDefaultProjection],
    by simp [makeDefaultProjection], by simp [makeDefaultProjection], rfl, ?_⟩
  intro h
  simp [invokeDocument, invokeDoc, h, makeReturnExpr, wrapSelection, String.intercalate,
    entryStrings]

/-- C10 witness: a concrete operation whose named return type is the
union "SearchResult" gets the empty default projection, and invoking it
without a projection yields a document with an empty selection set. -/
theorem non_object_default_projection_witness :
    makeDefaultProjection (.unionType "SearchResult") = some .nil
    ∧ invokeDocument ⟨.query, "search", "", "", .nil⟩ none = "query () \x7b search ()  \x7d" := by
  refine ⟨(non_object_default_projection "SearchResult" ⟨.query, "search", "", "", .nil⟩).2.2.2.1, ?_⟩
  have h := (non_object_default_projection "SearchResult"
    ⟨.query, "search", "", "", .nil⟩).2.2.2.2.2 rfl
  rw [h]
  rfl

/-- C4: when the introspected schema has no mutation type, connect
succeeds (given the query fields' default projections succeed) and
installs exactly one operation per query-type field, in declaration
order; when a mutation type is present, the mutation-field operations are
additionally installed after the query ones. -/
theorem connect_mutation_optional (qn : String) (qfs : List FieldDef)
    (ql : List (String × Operation)) (hq : synthOps .query qfs = some ql) :
    connect ⟨.objectType qn qfs, none⟩ = some ql
    ∧ ql.map Prod.fst = qfs.map FieldDef.name
    ∧ (∀ mn mfs ml, synthOps .mutation mfs = some ml →
        connect ⟨.objectType qn qfs, some (.objectType mn mfs)⟩ = some (ql ++ ml)
        ∧ (ql ++ ml).map Prod.fst = qfs.map FieldDef.name ++ mfs.map FieldDef.name) := by
  refine ⟨by simp [connect, getFields, hq], (synthOps_spec .query qfs ql hq).1, ?_⟩
  intro mn mfs ml hm
  refine ⟨by simp [connect, getFields, hq, hm], ?_⟩
  simp [(synthOps_spec .query qfs ql hq).1, (synthOps_spec .mutation mfs ml hm).1]

/-- C4 witness: a schema whose query type has the single field "ping" and
no mutation type connects to exactly the one query operation; adding a
mutation type with the single field "send" appends its operation. -/
theorem connect_mutation_optional_witness :
    connect ⟨.objectType "Q" [.mk "ping" [] (.named (.scalarType "String"))], none⟩ =
      some [("ping", ⟨.query, "ping", "", "", .nil⟩)]
    ∧ connect ⟨.objectType "Q" [.mk "ping" [] (.named (.scalarType "String"))],
        some (.objectType "M" [.mk "send" [] (.named (.scalarType "Boolean"))])⟩ =
      some [("ping", ⟨.query, "ping", "", "", .nil⟩),
        ("send", ⟨.mutation, "send", "", "", .nil⟩)] := by
  have hq : synthOps .query [.mk "ping" [] (.named (.scalarType "String"))] =
      some [("ping", ⟨.query, "ping", "", "", .nil⟩)] := by
    simp [synthOps, makeDefaultProjection, getNamedType, FieldDef.type, FieldDef.name,
      FieldDef.args, mkOperation, makeArgDeclare, makeArgBindings, String.intercalate]
  have hm : synthOps .mutation [.mk "send" [] (.named (.scalarType "Boolean"))] =
      some [("send", ⟨.mutation, "send", "", "", .nil⟩)] := by
    simp [synthOps, makeDefaultProjection, getNamedType, FieldDef.type, FieldDef.name,
      FieldDef.args, mkOperation, makeArgDeclare, makeArgBindings, String.intercalate]
  have h := connect_mutation_optional "Q" [.mk "ping" [] (.named (.scalarType "String"))]
    [("ping", ⟨.query, "ping", "", "", .nil⟩)] hq
  exact ⟨h.1, (h.2.2 "M" [.mk "send" [] (.named (.scalarType "Boolean"))]
    [("send", ⟨.mutation, "send", "", "", .nil⟩)] hm).1⟩

/-- C7: when the query type and the mutation type both declare a field
with the same name, connect installs both operations in order (query
first, mutation second), so the facade's lookup for that name — the most
recent property assignment — resolves to exactly one operation, and it is
the mutation-defined one. -/
theorem connect_name_collision (qn mn n : String) (qfs mfs : List FieldDef)
    (ql ml : List (String × Operation))
    (hq : synthOps .query qfs = some ql) (hm : synthOps .mutation mfs = some ml)
    (hn : n ∈ mfs.map FieldDef.name) :
    connect ⟨.objectType qn qfs, some (.objectType mn mfs)⟩ = some (ql ++ ml)
    ∧ ∃ op, installOps (ql ++ ml) n = some op ∧ op.kind = .mutation ∧ (n, op) ∈ ml := by
  have hnames := (synthOps_spec .mutation mfs ml hm).1
  have hkinds := (synthOps_spec .mutation mfs ml hm).2
  refine ⟨by simp [connect, getFields, hq, hm], ?_⟩
  have hn' : n ∈ ml.map Prod.fst := by rw [hnames]; exact hn
  obtain ⟨op, hop⟩ := installOps_isSome_of_mem ml n hn'
  have hmem := installOps_eq_some ml n op hop
  exact ⟨op, installOps_append_right ql ml n op hop, hkinds (n, op) hmem, hmem⟩

/-- C7 witness: a schema where both the query type and the mutation type
declare a field "ping" — connect installs the query operation then the
mutation operation, and the facade lookup for "ping" resolves to the
mutation-defined operation. -/
theorem connect_name_collision_witness :
    connect ⟨.objectType "Q" [.mk "ping" [] (.named (.scalarType "String"))],
        some (.objectType "M" [.mk "ping" [] (.named (.scalarType "Int"))])⟩ =
      some [("ping", ⟨.query, "ping", "", "", .nil⟩),
        ("ping", ⟨.mutation, "ping", "", "", .nil⟩)]
    ∧ installOps [("ping", ⟨.query, "ping", "", "", .nil⟩),
        ("ping", ⟨.mutation, "ping", "", "", .nil⟩)] "ping" =
      some ⟨.mutation, "ping", "", "", .nil⟩ := by
  have hq : synthOps .query [.mk "ping" [] (.named (.scalarType "String"))] =
      some [("ping", ⟨.query, "ping", "", "", .nil⟩)] := by
    simp [synthOps, makeDefaultProjection, getNamedType, FieldDef.type, FieldDef.name,
      FieldDef.args, mkOperation, makeArgDeclare, makeArgBindings, String.intercalate]
  have hm : synthOps .mutation [.mk "ping" [] (.named (.scalarType "Int"))] =
      some [("ping", ⟨.mutation, "ping", "", "", .nil⟩)] := by
    simp [synthOps, makeDefaultProjection, getNamedType, FieldDef.type, FieldDef.name,
      FieldDef.args, mkOperation, makeArgDeclare, makeArgBindings, String.intercalate]
  have h := connect_name_collision "Q" "M" "ping"
    [.mk "ping" [] (.named (.scalarType "String"))]
    [.mk "ping" [] (.named (.scalarType "Int"))]
    [("ping", ⟨.query, "ping", "", "", .nil⟩)]
    [("ping", ⟨.mutation, "ping", "", "", .nil⟩)]
    hq hm (by simp [FieldDef.name])
  exact ⟨h.1, rfl⟩

/-- C8: the effective projection of a call is the caller-supplied one
when present and non-empty, and the closed-over default when the caller
passes nothing or an empty mapping; the stored default itself is a value
closed over at connect time and the call only rebinds its local variable
to it, never writing into it, which the pure embedding reflects by
reading `op.defaultProjection` unchanged on every invocation. -/
theorem effective_projection_choice (op : Operation) (p : Projection) :
    invokeDocument op none = invokeDoc op op.defaultProjection
    ∧ invokeDocument op (some .nil) = invokeDoc op op.defaultProjection
    ∧ (p.isEmpty = false → invokeDocument op (some p) = invokeDoc op p) := by
  refine ⟨rfl, rfl, ?_⟩
  intro h
  simp [invokeDocument, h]

/-- C8 witness: with a non-empty supplied projection id-true the document
uses it; with none supplied the document uses the default. -/
theorem effective_projection_choice_witness :
    invokeDocument ⟨.query, "user", "", "", .cons "name" (.bool true) .nil⟩
        (some (.cons "id" (.bool true) .nil)) =
      "query () \x7b user () \x7bid\x7d \x7d"
    ∧ invokeDocument ⟨.query, "user", "", "", .cons "name" (.bool true) .nil⟩ none =
      "query () \x7b user () \x7bname\x7d \x7d" := by
  have h := effective_projection_choice
    ⟨.query, "user", "", "", .cons "name" (.bool true) .nil⟩
    (.cons "id" (.bool true) .nil)
  exact ⟨by rw [h.2.2 rfl]; rfl, by rw [h.1]; rfl⟩

theorem ensureClient_construct (t : Nat) (s : ClientState) (h : t ≤ s.counter) :
    ensureClient t s = ⟨1, some s.instancesMade, s.instancesMade + 1⟩ := by
  simp only [ensureClient, ge_iff_le]
  rw [if_pos h]

theorem ensureClient_skip (t : Nat) (s : ClientState) (h : s.counter < t) :
    ensureClient t s = ⟨s.counter + 1, s.apollo, s.instancesMade⟩ := by
  simp only [ensureClient, ge_iff_le]
  rw [if_neg (by omega)]

theorem ensureIter_closed (t : Nat) (ht : 1 ≤ t) (hmax : t ≤ maxSafeInteger) :
    ∀ n : Nat, 1 ≤ n → ensureIter t n =
      ⟨(n - 1) % t + 1, some ((n + t - 1) / t - 1), (n + t - 1) / t⟩ := by
  intro n
  induction n with
  | zero => intro h; exact absurd h (by omega)
  | succ m ih =>
    intro _
    by_cases hm : 1 ≤ m
    · rw [ensureIter, ih hm]
      have hrlt : (m - 1) % t < t := Nat.mod_lt _ (by omega)
      have hdecomp : t * ((m - 1) / t) + (m - 1) % t = m - 1 := Nat.div_add_mod (m - 1) t
      set a := (m - 1) / t with ha_def
      set r := (m - 1) % t with hr_def
      have hm_eq : m = t * a + r + 1 := by omega
      have hmul1 : t * (a + 1) = t * a + t := by ring
      have hmul2 : t * (a + 2) = t * a + t + t := by ring
      have hsub : m + 1 - 1 = m := by omega
      by_cases hc : t ≤ r + 1
      · have hrt : r + 1 = t := by omega
        rw [ensureClient_construct t _ (by simpa using hc)]
        have hq : (m + t - 1) / t = a + 1 := by
          have h1 : m + t - 1 = t * (a + 1) + r := by omega
          rw [h1, Nat.mul_add_div (by omega), Nat.div_eq_of_lt hrlt]
        have hq' : (m + 1 + t - 1) / t = a + 2 := by
          have h2 : m + 1 + t - 1 = t * (a + 2) + 0 := by omega
          rw [h2, Nat.mul_add_div (by omega), Nat.zero_div]
        have hmod : m % t = 0 := by
          have h3 : m = t * (a + 1) := by omega
          rw [h3, Nat.mul_mod_right]
        rw [ClientState.mk.injEq]
        refine ⟨?_, ?_, ?_⟩
        · rw [hsub, hmod]
        · rw [hq, hq']
          rfl
        · rw [hq, hq']
      · rw [ensureClient_skip t _ (by simp; omega)]
        have hq : (m + t - 1) / t = a + 1 := by
          have h1 : m + t - 1 = t * (a + 1) + r := by omega
          rw [h1, Nat.mul_add_div (by omega), Nat.div_eq_of_lt hrlt]
        have hq' : (m + 1 + t - 1) / t = a + 1 := by
          have h2 : m + 1 + t - 1 = t * (a + 1) + (r + 1) := by omega
          rw [h2, Nat.mul_add_div (by omega), Nat.div_eq_of_lt (by omega)]
        have hmod : m % t = r + 1 := by
          have h3 : m = t * a + (r + 1) := by omega
          rw [h3, Nat.mul_add_mod, Nat.mod_eq_of_lt (by omega)]
        rw [ClientState.mk.injEq]
        refine ⟨?_, ?_, ?_⟩
        · rw [hsub, hmod]
        · rw [hq, hq']
        · rw [hq, hq']
    · have hm0 : m = 0 := by omega
      subst hm0
      show ensureClient t (ensureIter t 0) = _
      have hcond : t ≤ (ensureIter t 0).counter := by
        simpa [ensureIter, initClientState] using hmax
      rw [ensureClient_construct t _ hcond]
      have h1 : 1 + t - 1 = t := by omega
      have h2 : t / t = 1 := Nat.div_self (by omega)
      simp [ensureIter, initClientState, ClientState.mk.injEq, h1, h2]

/-- C3 counterexample: the recycle threshold 2^53 is a positive integer,
but it exceeds the sentinel Number.MAX_SAFE_INTEGER = 2^53 - 1 that the
constructor stores in the counter, so the very first `_ensureClient` call
fails the threshold test, constructs zero transport clients (the claim's
ceil(1/t) = 1 demands one) and leaves `this.apollo` undefined. -/
theorem huge_threshold_cex :
    0 < 2 ^ 53
    ∧ (ensureIter (2 ^ 53) 1).instancesMade = 0
    ∧ (1 + 2 ^ 53 - 1) / 2 ^ 53 = 1
    ∧ (ensureIter (2 ^ 53) 1).apollo = none := by
  have hstep : ensureIter (2 ^ 53) 1 =
      ⟨maxSafeInteger + 1, none, 0⟩ := by
    show ensureClient (2 ^ 53) (ensureIter (2 ^ 53) 0) = _
    rw [show ensureIter (2 ^ 53) 0 = initClientState from rfl,
      ensureClient_skip _ _ (by norm_num [initClientState, maxSafeInteger])]
    rfl
  refine ⟨by norm_num, by rw [hstep], by norm_num, by rw [hstep]⟩

/-- C3 (amended): for every recycle threshold t with 1 ≤ t ≤
Number.MAX_SAFE_INTEGER (the constructor's counter sentinel), a sequence
of n `_ensureClient` calls from a freshly constructed client constructs
exactly ceil(n / t) = (n + t - 1) / t distinct transport-client
instances, the first call always constructs one and leaves the counter at
1, the counter after n ≥ 1 calls is ((n - 1) mod t) + 1, and each single
call constructs (resetting the counter to 0) exactly when the counter has
reached the threshold, incrementing the counter by 1 after the check in
every case. -/
theorem ensureClient_recycle_policy (t n : Nat) (ht : 1 ≤ t) (hmax : t ≤ maxSafeInteger) :
    (ensureIter t n).instancesMade = (n + t - 1) / t
    ∧ (1 ≤ n → (ensureIter t n).counter = (n - 1) % t + 1)
    ∧ (ensureIter t 1).instancesMade = 1
    ∧ (ensureIter t 1).counter = 1
    ∧ (∀ s : ClientState, t ≤ s.counter →
        ensureClient t s = ⟨1, some s.instancesMade, s.instancesMade + 1⟩)
    ∧ (∀ s : ClientState, s.counter < t →
        ensureClient t s = ⟨s.counter + 1, s.apollo, s.instancesMade⟩) := by
  have hit1 := ensureIter_closed t ht hmax 1 (by omega)
  have h1t : 1 + t - 1 = t := by omega
  have htt : t / t = 1 := Nat.div_self (by omega)
  refine ⟨?_, ?_, ?_, ?_, ensureClient_construct t, ensureClient_skip t⟩
  · cases n with
    | zero =>
      show initClientState.instancesMade = (0 + t - 1) / t
      have : (0 + t - 1) / t = 0 := Nat.div_eq_of_lt (by omega)
      rw [this]
      rfl
    | succ m =>
      rw [ensureIter_closed t ht hmax (m + 1) (by omega)]
  · intro hn
    rw [ensureIter_closed t ht hmax n hn]
  · rw [hit1]
    show (1 + t - 1) / t = 1
    rw [h1t, htt]
  · rw [hit1]
    show (1 - 1) % t + 1 = 1
    simp

/-- C3 witness: at threshold 2 (which is between 1 and the sentinel),
five calls construct (5 + 2 - 1) / 2 = 3 instances and leave the counter
at (5 - 1) % 2 + 1 = 1, and the first call constructs exactly one. -/
theorem ensureClient_recycle_policy_witness :
    (ensureIter 2 5).instancesMade = (5 + 2 - 1) / 2
    ∧ (ensureIter 2 1).instancesMade = 1
    ∧ (ensureIter 2 5).counter = (5 - 1) % 2 + 1 := by
  have h5 := ensureClient_recycle_policy 2 5 (by norm_num) (by norm_num [maxSafeInteger])
  have h1 := ensureClient_recycle_policy 2 1 (by norm_num) (by norm_num [maxSafeInteger])
  exact ⟨h5.1, h1.2.2.1, h5.2.1 (by norm_num)⟩

end GQL
